import Mathlib

/-!
Verification of the data-batching layer of `deepxde/data/triple.py`
(`Triple` and `TripleCartesianProd` datasets) as a shallow embedding.

Modelling conventions:
* A NumPy array is a `List` of its first-axis rows; `len(a)` is `List.length`;
  a 2-D array is a `List (List _)` and its `.size` (total element count) is
  the sum of its row lengths (`size2`).
* NumPy fancy indexing `a[indices]` is `gather a indices`, which looks every
  index up along the first axis; indices produced by the sampler are proved
  in range, under which `gather` picks exactly one row per index.
* Python exceptions (`raise ValueError`) are modelled with `Except String`.
* The random number generator behind shuffling is abstracted as a function
  `draw : Nat → List Nat` supplying the ordering drawn for a sampler of the
  given size; theorems quantify over `draw`.
* sklearn's `StandardScaler` and the `Data` base class are external to the
  excerpt; they are modelled from the spec where a claim needs them (see the
  doc comments starting with "Modelled from the spec").
-/

/-- Modelled from the spec: `BatchSampler` state (`deepxde/data/sampler.py` is
not part of the excerpt).  It owns the total count `n`, the `shuffle` flag,
the current ordering over `[0, n)` and a cursor into it. -/
structure BatchSampler where
  n : Nat
  shuffle : Bool
  ordering : List Nat
  cursor : Nat
deriving DecidableEq, Repr

/-- Modelled from the spec: `BatchSampler` construction initializes a
full-coverage ordering over `[0, n)` — the identity order if `shuffle` is
false, else a freshly drawn permutation (abstracted by `draw`) — and a cursor
at 0. -/
def BatchSampler.construct (draw : Nat → List Nat) (n : Nat) (shuffle : Bool) :
    BatchSampler :=
  { n := n, shuffle := shuffle,
    ordering := if shuffle then draw n else List.range n,
    cursor := 0 }

/-- Modelled from the spec: `BatchSampler.get_next` returns `batch_size`
indices by advancing the cursor through the current ordering; at the end of
the ordering a new epoch begins with a fresh ordering (redrawn when `shuffle`,
the identity order otherwise) and the tail of the old epoch is concatenated
with the head of the new one.  A sampler whose fresh ordering is empty stops
short instead of looping. -/
def BatchSampler.get_next (draw : Nat → List Nat) :
    Nat → BatchSampler → List Nat × BatchSampler
  | 0, s => ([], s)
  | Nat.succ k, s =>
    if h : s.cursor < s.ordering.length then
      let r := get_next draw k { s with cursor := s.cursor + 1 }
      (s.ordering.get ⟨s.cursor, h⟩ :: r.1, r.2)
    else
      let newOrd := if s.shuffle then draw s.n else List.range s.n
      if h2 : newOrd = [] then ([], s)
      else
        let r := get_next draw k { s with ordering := newOrd, cursor := 1 }
        (newOrd.head h2 :: r.1, r.2)

/-- NumPy fancy indexing `xs[indices]` along the first axis. -/
def gather (xs : List α) (idx : List Nat) : List α :=
  idx.filterMap (fun i => xs.get? i)

/-- Total element count of a 2-D array (NumPy `y.size`). -/
def size2 (y : List (List β)) : Nat :=
  (y.map List.length).sum

/-- Per-branch scaler operations: `fit` learns parameters from an array and
`transform` applies learned parameters.  This abstracts sklearn's
`preprocessing.StandardScaler` (external to the excerpt); `fit_transform X`
is `transform (fit X) X`. -/
structure ScalerOps (α : Type) (S : Type) where
  fit : List α → S
  transform : S → List α → List α

/-- The `Triple` dataset: paired branch inputs `train_x = (A, B)`, outputs
`train_y`, the held-out split, the optional fitted per-branch scalers
`scaler_x`, and the owned `train_sampler`. -/
structure Triple (α β S : Type) where
  train_x : List α × List α
  train_y : List β
  test_x : List α × List α
  test_y : List β
  scaler_x : Option (S × S)
  train_sampler : BatchSampler
deriving DecidableEq

/-- `standardize_one` from `Triple._standardize`: fit a scaler on the training
array `X1`, replace `X1` by `fit_transform(X1)` and `X2` by `transform(X2)`
with the already fitted scaler, returning `(scaler, X1, X2)`. -/
def standardize_one (ops : ScalerOps α S) (X1 X2 : List α) :
    S × List α × List α :=
  let scaler := ops.fit X1
  (scaler, ops.transform scaler X1, ops.transform scaler X2)

/-- `Triple.__init__`: stores the splits; when `standardize` is set, applies
`standardize_one` branchwise to `(train_x, test_x)` and retains the fitted
scalers (the `zip(*map(standardize_one, train_x, test_x))` of
`Triple._standardize`); finally creates a `BatchSampler` over
`len(train_y)` with shuffling enabled. -/
def Triple.construct (ops : ScalerOps α S) (draw : Nat → List Nat)
    (X_train : List α × List α) (y_train : List β)
    (X_test : List α × List α) (y_test : List β)
    (standardize : Bool) : Triple α β S :=
  if standardize then
    let r1 := standardize_one ops X_train.1 X_test.1
    let r2 := standardize_one ops X_train.2 X_test.2
    { train_x := (r1.2.1, r2.2.1), train_y := y_train,
      test_x := (r1.2.2, r2.2.2), test_y := y_test,
      scaler_x := some (r1.1, r2.1),
      train_sampler := BatchSampler.construct draw y_train.length true }
  else
    { train_x := X_train, train_y := y_train,
      test_x := X_test, test_y := y_test,
      scaler_x := none,
      train_sampler := BatchSampler.construct draw y_train.length true }

/-- `Triple.losses`: `[loss(targets, outputs)]`; `model` is forwarded but
unused. -/
def Triple.losses (_d : Triple α β S) (targets : T) (outputs : O)
    (loss : T → O → L) (_model : M) : List L :=
  [loss targets outputs]

/-- `Triple.train_next_batch`: with no batch size, return the stored training
pair; otherwise get indices from the sampler and gather the corresponding
rows of both branches and of the output.  The updated dataset (its sampler
cursor advanced) is returned alongside, making the sampler mutation
explicit. -/
def Triple.train_next_batch (d : Triple α β S) (draw : Nat → List Nat) :
    Option Nat → ((List α × List α) × List β) × Triple α β S
  | none => ((d.train_x, d.train_y), d)
  | some batch_size =>
    let r := d.train_sampler.get_next draw batch_size
    (((gather d.train_x.1 r.1, gather d.train_x.2 r.1), gather d.train_y r.1),
      { d with train_sampler := r.2 })

/-- `Triple.test`: the stored held-out pair. -/
def Triple.test (d : Triple α β S) : (List α × List α) × List β :=
  (d.test_x, d.test_y)

/-- `Triple.transform_inputs`: identity when no scalers were configured, else
apply each retained fitted scaler to its branch. -/
def Triple.transform_inputs (ops : ScalerOps α S) (d : Triple α β S)
    (x : List α × List α) : List α × List α :=
  match d.scaler_x with
  | none => x
  | some (s1, s2) => (ops.transform s1 x.1, ops.transform s2 x.2)

/-- The `TripleCartesianProd` dataset: branch inputs `train_x = (A, B)` with
`A : List α` and `B : List γ`, a 2-D output table, the held-out split, and
the owned `train_sampler` (sized to the first-axis count of `A`). -/
structure TripleCartesianProd (α γ β : Type) where
  train_x : List α × List γ
  train_y : List (List β)
  test_x : List α × List γ
  test_y : List (List β)
  train_sampler : BatchSampler
deriving DecidableEq

/-- Error message raised for the training split by
`TripleCartesianProd.__init__`. -/
def trainingMismatchMsg : String :=
  "The training dataset does not have the format of Cartesian product."

/-- Error message raised for the testing split by
`TripleCartesianProd.__init__`. -/
def testingMismatchMsg : String :=
  "The testing dataset does not have the format of Cartesian product."

/-- `TripleCartesianProd.__init__`: raise unless
`len(X[0]) * len(X[1]) == y.size` for the training and then the testing
split; on success store the splits and create a `BatchSampler` over
`len(X_train[0])` with shuffling enabled. -/
def TripleCartesianProd.construct (draw : Nat → List Nat)
    (X_train : List α × List γ) (y_train : List (List β))
    (X_test : List α × List γ) (y_test : List (List β)) :
    Except String (TripleCartesianProd α γ β) :=
  if X_train.1.length * X_train.2.length ≠ size2 y_train then
    .error trainingMismatchMsg
  else if X_test.1.length * X_test.2.length ≠ size2 y_test then
    .error testingMismatchMsg
  else
    .ok { train_x := X_train, train_y := y_train,
          test_x := X_test, test_y := y_test,
          train_sampler := BatchSampler.construct draw X_train.1.length true }

/-- `TripleCartesianProd.losses`: `[loss(targets, outputs)]`; `model` is
forwarded but unused. -/
def TripleCartesianProd.losses (_d : TripleCartesianProd α γ β) (targets : T)
    (outputs : O) (loss : T → O → L) (_model : M) : List L :=
  [loss targets outputs]

/-- `TripleCartesianProd.train_next_batch`: with no batch size, return the
stored training pair; otherwise get indices from the sampler, gather the
corresponding rows of the first branch and of the output's first axis, and
pass the second branch through whole. -/
def TripleCartesianProd.train_next_batch (d : TripleCartesianProd α γ β)
    (draw : Nat → List Nat) :
    Option Nat → ((List α × List γ) × List (List β)) × TripleCartesianProd α γ β
  | none => ((d.train_x, d.train_y), d)
  | some batch_size =>
    let r := d.train_sampler.get_next draw batch_size
    (((gather d.train_x.1 r.1, d.train_x.2), gather d.train_y r.1),
      { d with train_sampler := r.2 })

/-- `TripleCartesianProd.test`: the stored held-out pair. -/
def TripleCartesianProd.test (d : TripleCartesianProd α γ β) :
    (List α × List γ) × List (List β) :=
  (d.test_x, d.test_y)

/-- Modelled from the spec: `transform_inputs` on a Cartesian-product dataset.
The shared dataset interface includes `transform_inputs` (provided by the
`Data` base class, which is not part of the excerpt); `TripleCartesianProd`
configures no standardization, so inputs are returned unchanged. -/
def TripleCartesianProd.transform_inputs (_d : TripleCartesianProd α γ β)
    (x : List α × List γ) : List α × List γ :=
  x

/-- The identity draw, `[0, n)` in order; used to instantiate theorems at
concrete inputs. -/
def drawId : Nat → List Nat := fun m => List.range m

/-- A concrete Cartesian-product dataset (`N1 = 2`, `N2 = 3`) used to
instantiate theorems at a concrete input. -/
def cartD : TripleCartesianProd Nat Nat Nat :=
  { train_x := ([10, 20], [7, 8, 9]), train_y := [[1, 2, 3], [4, 5, 6]],
    test_x := ([0], [5]), test_y := [[0]],
    train_sampler := { n := 2, shuffle := true, ordering := [0, 1], cursor := 0 } }

/-- A concrete `Triple` dataset used to instantiate theorems at a concrete
input. -/
def tripleD : Triple Nat Nat Unit :=
  { train_x := ([3, 4], [5, 6]), train_y := [8, 9],
    test_x := ([], []), test_y := [], scaler_x := none,
    train_sampler := { n := 2, shuffle := true, ordering := [1, 0], cursor := 0 } }

/-- A `get_next` call on a shuffling sampler whose current and freshly drawn
orderings stay inside `[0, n)` (and whose fresh ordering is nonempty) returns
exactly the requested number of indices, all in range. -/
theorem BatchSampler.get_next_len_mem (draw : Nat → List Nat) :
    ∀ (k : Nat) (s : BatchSampler), s.shuffle = true →
      (∀ i ∈ s.ordering, i < s.n) →
      (∀ i ∈ draw s.n, i < s.n) → draw s.n ≠ [] →
      (BatchSampler.get_next draw k s).1.length = k ∧
        ∀ i ∈ (BatchSampler.get_next draw k s).1, i < s.n := by
  intro k
  induction k with
  | zero => intro s _ _ _ _; simp [get_next]
  | succ k ih =>
    intro s hsh hord hdr hne
    rw [get_next]
    by_cases h : s.cursor < s.ordering.length
    · simp only [dif_pos h]
      have hrec := ih { s with cursor := s.cursor + 1 } hsh hord hdr hne
      refine ⟨by simpa using hrec.1, ?_⟩
      intro i hi
      rcases List.mem_cons.1 hi with hi | hi
      · exact hi ▸ hord _ (s.ordering.get_mem _ _)
      · exact hrec.2 i hi
    · simp only [dif_neg h, hsh, if_true]
      have hne' : draw s.n ≠ [] := hne
      simp only [dif_neg hne']
      have hrec :=
        ih { n := s.n, shuffle := true, ordering := draw s.n, cursor := 1 }
          rfl hdr hdr hne
      refine ⟨by simpa using hrec.1, ?_⟩
      intro i hi
      rcases List.mem_cons.1 hi with hi | hi
      · exact hi ▸ hdr _ (List.head_mem hne')
      · exact hrec.2 i hi

/-- Gathering with in-range indices returns one row per index. -/
theorem gather_length_of_valid (xs : List α) :
    ∀ idx : List Nat, (∀ i ∈ idx, i < xs.length) →
      (gather xs idx).length = idx.length := by
  intro idx
  induction idx with
  | nil => intro _; simp [gather]
  | cons i t ih =>
    intro hv
    have hi : i < xs.length := hv i (List.mem_cons_self _ _)
    have hg : xs.get? i = some (xs.get ⟨i, hi⟩) := List.get?_eq_get hi
    simp only [gather, List.filterMap_cons, hg, List.length_cons]
    have := ih (fun j hj => hv j (List.mem_cons_of_mem _ hj))
    simpa [gather] using this

/-- Row `j` of a gather with in-range indices is the row of the source at
index `idx[j]`: the gathered rows stay aligned 1:1 with the index sequence. -/
theorem gather_get?_of_valid (xs : List α) :
    ∀ (idx : List Nat), (∀ i ∈ idx, i < xs.length) → ∀ j : Nat,
      (gather xs idx).get? j = (idx.get? j).bind (fun i => xs.get? i) := by
  intro idx
  induction idx with
  | nil => intro _ j; simp [gather]
  | cons i t ih =>
    intro hv j
    have hi : i < xs.length := hv i (List.mem_cons_self _ _)
    obtain ⟨a, ha⟩ : ∃ a, xs[i]? = some a := ⟨_, List.getElem?_eq_getElem hi⟩
    cases j with
    | zero => simp [gather, List.filterMap_cons, List.get?_eq_getElem?, ha]
    | succ j =>
      have := ih (fun j hj => hv j (List.mem_cons_of_mem _ hj)) j
      simpa [gather, List.filterMap_cons, List.get?_eq_getElem?, ha] using this

/-- Each row of a gather from a rectangular table keeps the full row width. -/
theorem gather_rows_width (ys : List (List β)) (N2 : Nat)
    (hw : ∀ r ∈ ys, r.length = N2) :
    ∀ idx : List Nat, ∀ r ∈ gather ys idx, r.length = N2 := by
  intro idx r hr
  rcases List.mem_filterMap.1 hr with ⟨i, _, hget⟩
  exact hw r (List.get?_mem hget)

/-- C1: constructing a `TripleCartesianProd` raises the Cartesian-product
error if and only if `len(A) * len(B) ≠ y.size` for the training split or
for the testing split.  Construction returns an `Except`: in the error case
no dataset value exists at all, so no fields are stored — fail fast, no
partial construction. -/
theorem cartesian_construct_error_iff (draw : Nat → List Nat)
    (A : List α) (B : List γ) (y_train : List (List β))
    (A' : List α) (B' : List γ) (y_test : List (List β)) :
    (∃ e, TripleCartesianProd.construct draw (A, B) y_train (A', B') y_test
        = Except.error e) ↔
      A.length * B.length ≠ size2 y_train ∨
        A'.length * B'.length ≠ size2 y_test := by
  unfold TripleCartesianProd.construct
  by_cases h1 : A.length * B.length = size2 y_train
  · by_cases h2 : A'.length * B'.length = size2 y_test
    · simp [h1, h2]
    · simp [h1, h2]
  · simp [h1]

/-- C3: constructing a `Triple` with `standardize = true` fits exactly one
scaler per branch, each on that branch's training data only; the training
branch arrays are replaced by their standardized versions, the test branch
arrays are transformed with the same already fitted parameters (never refit
on test data), and the fitted scalers are retained in `scaler_x`. -/
theorem triple_standardize_spec (ops : ScalerOps α S) (draw : Nat → List Nat)
    (X_train : List α × List α) (y_train : List β)
    (X_test : List α × List α) (y_test : List β) :
    let d := Triple.construct ops draw X_train y_train X_test y_test true
    d.scaler_x = some (ops.fit X_train.1, ops.fit X_train.2) ∧
    d.train_x = (ops.transform (ops.fit X_train.1) X_train.1,
                 ops.transform (ops.fit X_train.2) X_train.2) ∧
    d.test_x = (ops.transform (ops.fit X_train.1) X_test.1,
                ops.transform (ops.fit X_train.2) X_test.2) ∧
    d.train_y = y_train ∧ d.test_y = y_test := by
  exact ⟨rfl, rfl, rfl, rfl, rfl⟩

/-- C5: `train_next_batch` with unset batch size returns the stored training
inputs and targets unchanged and returns the dataset itself untouched — in
particular no indices are consumed from the sampler — in both variants. -/
theorem train_next_batch_none_identity (α β S γ : Type) :
    (∀ (d : Triple α β S) (draw : Nat → List Nat),
      d.train_next_batch draw none = ((d.train_x, d.train_y), d)) ∧
    (∀ (d : TripleCartesianProd α γ β) (draw : Nat → List Nat),
      d.train_next_batch draw none = ((d.train_x, d.train_y), d)) :=
  ⟨fun _ _ => rfl, fun _ _ => rfl⟩

/-- C6 counterexample: with `rows(A) = 3`, `rows(B) = 4`, `size(y) = 11`,
construction fails with the fixed training-split message, and that message
contains no digit at all — so it does not state the expected (12) versus
actual (11) counts, contrary to the claim. -/
theorem cartesian_error_message_no_counts :
    TripleCartesianProd.construct drawId
        (([0, 1, 2] : List Nat), ([0, 1, 2, 3] : List Nat))
        [[0, 0, 0, 0], [0, 0, 0, 0], [0, 0, 0]]
        (([0] : List Nat), ([0] : List Nat)) [[(0 : Nat)]]
      = Except.error trainingMismatchMsg ∧
    (trainingMismatchMsg.toList.all fun c => !c.isDigit) = true := by
  exact ⟨rfl, by decide⟩

/-- C6 (amended): the error message identifies which split violated the
invariant — a training-split violation yields the fixed training message, a
testing-split violation (with the training split valid) yields the fixed
testing message, and the two messages differ — but the message does not
state the expected versus actual counts. -/
theorem cartesian_error_message_split (draw : Nat → List Nat)
    (A : List α) (B : List γ) (y_train : List (List β))
    (A' : List α) (B' : List γ) (y_test : List (List β)) :
    (TripleCartesianProd.construct draw (A, B) y_train (A', B') y_test
        = Except.error trainingMismatchMsg ↔
      A.length * B.length ≠ size2 y_train) ∧
    (TripleCartesianProd.construct draw (A, B) y_train (A', B') y_test
        = Except.error testingMismatchMsg ↔
      (A.length * B.length = size2 y_train ∧
        A'.length * B'.length ≠ size2 y_test)) ∧
    trainingMismatchMsg ≠ testingMismatchMsg := by
  have hmsg : trainingMismatchMsg ≠ testingMismatchMsg := by decide
  refine ⟨?_, ?_, hmsg⟩ <;>
    unfold TripleCartesianProd.construct <;>
    by_cases h1 : A.length * B.length = size2 y_train <;>
    by_cases h2 : A'.length * B'.length = size2 y_test <;>
    simp [h1, h2, hmsg, Ne.symm hmsg]

/-- C7: both variants implement the shared dataset interface: `losses`
returns the same single-element list in both, `test` returns the stored
held-out pair in both, and `TripleCartesianProd` provides `transform_inputs`
(returning inputs unchanged, as it configures no standardization). -/
theorem shared_interface_contract (α β S γ T O L M : Type) :
    (∀ (d : Triple α β S) (t : T) (o : O) (loss : T → O → L) (m : M),
      d.losses t o loss m = [loss t o]) ∧
    (∀ (d : TripleCartesianProd α γ β) (t : T) (o : O) (loss : T → O → L)
        (m : M), d.losses t o loss m = [loss t o]) ∧
    (∀ d : Triple α β S, d.test = (d.test_x, d.test_y)) ∧
    (∀ d : TripleCartesianProd α γ β, d.test = (d.test_x, d.test_y)) ∧
    (∀ (d : TripleCartesianProd α γ β) (x : List α × List γ),
      d.transform_inputs x = x) :=
  ⟨fun _ _ _ _ _ => rfl, fun _ _ _ _ _ => rfl, fun _ => rfl, fun _ => rfl,
    fun _ _ => rfl⟩

/-- C8: in both variants `losses` returns exactly the one-element sequence
`[loss targets outputs]`, and the `model` argument is only forwarded, never
invoked: it may have any type whatsoever and the result never depends on
it. -/
theorem losses_singleton_model_unused (α β S γ T O L M M2 : Type) :
    (∀ (d : Triple α β S) (t : T) (o : O) (loss : T → O → L) (m : M),
      d.losses t o loss m = [loss t o] ∧
        ∀ m2 : M2, d.losses t o loss m2 = d.losses t o loss m) ∧
    (∀ (d : TripleCartesianProd α γ β) (t : T) (o : O) (loss : T → O → L)
        (m : M),
      d.losses t o loss m = [loss t o] ∧
        ∀ m2 : M2, d.losses t o loss m2 = d.losses t o loss m) :=
  ⟨fun _ _ _ _ _ => ⟨rfl, fun _ => rfl⟩, fun _ _ _ _ _ => ⟨rfl, fun _ => rfl⟩⟩

/-- C9: on a `Triple` constructed with `standardize = false`, no scalers are
configured and `transform_inputs` returns its input unchanged. -/
theorem transform_inputs_identity_when_not_standardized
    (ops : ScalerOps α S) (draw : Nat → List Nat)
    (X_train : List α × List α) (y_train : List β)
    (X_test : List α × List α) (y_test : List β) (x : List α × List α) :
    (Triple.construct ops draw X_train y_train X_test y_test
        false).transform_inputs ops x = x :=
  rfl

/-- C10: construction validates only the total element count of `y` against
the product of the two branch lengths, never `y`'s shape: any `y` with
matching size is accepted — e.g. one of shape `(N2, N1)` — and stored as
given, even though `train_next_batch` will index it along its first axis. -/
theorem cartesian_construct_size_only (draw : Nat → List Nat)
    (A : List α) (B : List γ) (y_train : List (List β))
    (A' : List α) (B' : List γ) (y_test : List (List β))
    (h1 : size2 y_train = A.length * B.length)
    (h2 : size2 y_test = A'.length * B'.length) :
    TripleCartesianProd.construct draw (A, B) y_train (A', B') y_test
      = Except.ok { train_x := (A, B), train_y := y_train,
                    test_x := (A', B'), test_y := y_test,
                    train_sampler :=
                      BatchSampler.construct draw A.length true } := by
  unfold TripleCartesianProd.construct
  simp [h1, h2]

/-- C10 witness: a `3 × 4` Cartesian product whose output table has shape
`(4, 3)` — the transpose of the documented `(N1, N2)` layout — is accepted
because its total size is `12`. -/
theorem cartesian_construct_size_only_witness :
    TripleCartesianProd.construct drawId
        (([0, 1, 2] : List Nat), ([0, 1, 2, 3] : List Nat))
        [[1, 2, 3], [4, 5, 6], [7, 8, 9], [10, 11, 12]]
        (([0] : List Nat), ([0] : List Nat)) [[(0 : Nat)]]
      = Except.ok { train_x := ([0, 1, 2], [0, 1, 2, 3]),
                    train_y := [[1, 2, 3], [4, 5, 6], [7, 8, 9], [10, 11, 12]],
                    test_x := ([0], [0]), test_y := [[0]],
                    train_sampler := ⟨3, true, [0, 1, 2], 0⟩ } :=
  cartesian_construct_size_only drawId [0, 1, 2] [0, 1, 2, 3]
    [[1, 2, 3], [4, 5, 6], [7, 8, 9], [10, 11, 12]] [0] [0] [[0]]
    (by decide) (by decide)

/-- C2: a sized batch from a Cartesian-product dataset: the sampled index
sequence has exactly the requested length `k`; the first branch is exactly
the `k` rows of `A_train` selected by those indices; the second branch is
the original `B_train` array unchanged, not indexed; and the output is
`train_y` restricted to the sampled first-axis indices with all `N2` columns
kept, i.e. of shape `(k, N2)`. -/
theorem cartesian_train_next_batch_spec (draw : Nat → List Nat)
    (A : List α) (B : List γ) (y_train : List (List β))
    (A' : List α) (B' : List γ) (y_test : List (List β))
    (d : TripleCartesianProd α γ β)
    (hok : TripleCartesianProd.construct draw (A, B) y_train (A', B') y_test
      = Except.ok d)
    (hdr : ∀ i ∈ draw A.length, i < A.length) (hne : draw A.length ≠ [])
    (k N2 : Nat) (hyl : y_train.length = A.length)
    (hyw : ∀ r ∈ y_train, r.length = N2) :
    (d.train_sampler.get_next draw k).1.length = k ∧
    d.train_next_batch draw (some k)
      = (((gather A (d.train_sampler.get_next draw k).1, B),
          gather y_train (d.train_sampler.get_next draw k).1),
         { d with train_sampler := (d.train_sampler.get_next draw k).2 }) ∧
    (gather A (d.train_sampler.get_next draw k).1).length = k ∧
    (gather y_train (d.train_sampler.get_next draw k).1).length = k ∧
    ∀ r ∈ gather y_train (d.train_sampler.get_next draw k).1,
      r.length = N2 := by
  have hd : d = { train_x := (A, B), train_y := y_train, test_x := (A', B'),
                  test_y := y_test,
                  train_sampler :=
                    BatchSampler.construct draw A.length true } := by
    unfold TripleCartesianProd.construct at hok
    by_cases h1 : A.length * B.length = size2 y_train
    · by_cases h2 : A'.length * B'.length = size2 y_test
      · simp [h1, h2] at hok
        exact hok.symm
      · simp [h1, h2] at hok
    · simp [h1] at hok
  subst hd
  have hlm := BatchSampler.get_next_len_mem draw k
    (BatchSampler.construct draw A.length true) rfl
    (by simpa [BatchSampler.construct] using hdr)
    (by simpa [BatchSampler.construct] using hdr)
    (by simpa [BatchSampler.construct] using hne)
  have hmem : ∀ i ∈ ((BatchSampler.construct draw A.length
      true).get_next draw k).1, i < A.length := by
    simpa [BatchSampler.construct] using hlm.2
  refine ⟨hlm.1, rfl, ?_, ?_, ?_⟩
  · rw [gather_length_of_valid A _ hmem]
    exact hlm.1
  · rw [gather_length_of_valid y_train _ (fun i hi => hyl ▸ hmem i hi)]
    exact hlm.1
  · exact gather_rows_width y_train N2 hyw _

/-- C2 witness: the theorem instantiated at `cartD` (`N1 = 2`, `N2 = 3`),
the identity draw and batch size 3 (spanning an epoch boundary); the final
conjunct is instantiated at the sampled row `[1, 2, 3]`. -/
theorem cartesian_train_next_batch_spec_witness :
    (cartD.train_sampler.get_next drawId 3).1.length = 3 ∧
    cartD.train_next_batch drawId (some 3)
      = (((gather cartD.train_x.1 (cartD.train_sampler.get_next drawId 3).1,
           cartD.train_x.2),
          gather cartD.train_y (cartD.train_sampler.get_next drawId 3).1),
         { cartD with
            train_sampler := (cartD.train_sampler.get_next drawId 3).2 }) ∧
    (gather cartD.train_x.1 (cartD.train_sampler.get_next drawId 3).1).length
      = 3 ∧
    (gather cartD.train_y (cartD.train_sampler.get_next drawId 3).1).length
      = 3 ∧
    ([1, 2, 3] : List Nat).length = 3 :=
  have h := cartesian_train_next_batch_spec drawId [10, 20] [7, 8, 9]
    [[1, 2, 3], [4, 5, 6]] [0] [5] [[0]] cartD rfl (by decide) (by decide)
    3 3 (by decide) (by decide)
  ⟨h.1, h.2.1, h.2.2.1, h.2.2.2.1, h.2.2.2.2 [1, 2, 3] (by decide)⟩

/-- C4: a sized batch from a `Triple` dataset obtains one index sequence of
the requested length from the owned sampler and applies that same sequence
to the first branch, the second branch and the output array; row `j` of each
returned component comes from the same source index, so the rows stay
aligned 1:1 across both branches and the targets. -/
theorem triple_train_next_batch_alignment
    (d : Triple α β S) (draw : Nat → List Nat) (k : Nat)
    (hsh : d.train_sampler.shuffle = true)
    (hord : ∀ i ∈ d.train_sampler.ordering, i < d.train_sampler.n)
    (hdr : ∀ i ∈ draw d.train_sampler.n, i < d.train_sampler.n)
    (hne : draw d.train_sampler.n ≠ [])
    (hA : d.train_sampler.n ≤ d.train_x.1.length)
    (hB : d.train_sampler.n ≤ d.train_x.2.length)
    (hy : d.train_sampler.n ≤ d.train_y.length) :
    (d.train_sampler.get_next draw k).1.length = k ∧
    d.train_next_batch draw (some k)
      = (((gather d.train_x.1 (d.train_sampler.get_next draw k).1,
           gather d.train_x.2 (d.train_sampler.get_next draw k).1),
          gather d.train_y (d.train_sampler.get_next draw k).1),
         { d with train_sampler := (d.train_sampler.get_next draw k).2 }) ∧
    ∀ j : Nat,
      (gather d.train_x.1 (d.train_sampler.get_next draw k).1).get? j
          = (((d.train_sampler.get_next draw k).1.get? j).bind
              fun i => d.train_x.1.get? i) ∧
      (gather d.train_x.2 (d.train_sampler.get_next draw k).1).get? j
          = (((d.train_sampler.get_next draw k).1.get? j).bind
              fun i => d.train_x.2.get? i) ∧
      (gather d.train_y (d.train_sampler.get_next draw k).1).get? j
          = (((d.train_sampler.get_next draw k).1.get? j).bind
              fun i => d.train_y.get? i) := by
  have hlm := BatchSampler.get_next_len_mem draw k d.train_sampler hsh hord
    hdr hne
  refine ⟨hlm.1, rfl, ?_⟩
  intro j
  exact ⟨gather_get?_of_valid d.train_x.1 _
      (fun i hi => lt_of_lt_of_le (hlm.2 i hi) hA) j,
    gather_get?_of_valid d.train_x.2 _
      (fun i hi => lt_of_lt_of_le (hlm.2 i hi) hB) j,
    gather_get?_of_valid d.train_y _
      (fun i hi => lt_of_lt_of_le (hlm.2 i hi) hy) j⟩

/-- C4 witness: the theorem instantiated at `tripleD`, the identity draw and
batch size 3 (spanning an epoch boundary); the row-alignment conjunct is
instantiated at row 0. -/
theorem triple_train_next_batch_alignment_witness :
    (tripleD.train_sampler.get_next drawId 3).1.length = 3 ∧
    tripleD.train_next_batch drawId (some 3)
      = (((gather tripleD.train_x.1 (tripleD.train_sampler.get_next drawId 3).1,
           gather tripleD.train_x.2
             (tripleD.train_sampler.get_next drawId 3).1),
          gather tripleD.train_y (tripleD.train_sampler.get_next drawId 3).1),
         { tripleD with
            train_sampler := (tripleD.train_sampler.get_next drawId 3).2 }) ∧
    ((gather tripleD.train_x.1
          (tripleD.train_sampler.get_next drawId 3).1).get? 0
        = (((tripleD.train_sampler.get_next drawId 3).1.get? 0).bind
            fun i => tripleD.train_x.1.get? i) ∧
      (gather tripleD.train_x.2
          (tripleD.train_sampler.get_next drawId 3).1).get? 0
        = (((tripleD.train_sampler.get_next drawId 3).1.get? 0).bind
            fun i => tripleD.train_x.2.get? i) ∧
      (gather tripleD.train_y
          (tripleD.train_sampler.get_next drawId 3).1).get? 0
        = (((tripleD.train_sampler.get_next drawId 3).1.get? 0).bind
            fun i => tripleD.train_y.get? i)) :=
  have h := triple_train_next_batch_alignment tripleD drawId 3 rfl (by decide)
    (by decide) (by decide) (by decide) (by decide) (by decide)
  ⟨h.1, h.2.1, h.2.2 0⟩
